import Mathlib

/-!
# Shallow embedding of the delegation backend (auth_server.cjs)

This file models the Express handlers of `auth_server.cjs` as pure Lean
functions over explicit store states, and proves the behavioural claims
about them.  The relational store is modelled as Lean lists of rows; each
HTTP handler becomes a function from its inputs (request body, route
params, authorization header, current store) to a response and, where the
handler writes, an updated store.  JavaScript truthiness on strings is
modelled by comparison with the empty string; `bcrypt` and `jwt` are
abstracted as function parameters since the handlers only use them as
black boxes.
-/

namespace DelegationBackend

/-- A user row of the `users` table: unique email, bcrypt password hash,
and the six nullable profile columns added by the schema manager. -/
structure UserRow where
  email : String
  password : String
  first_name : Option String := none
  last_name : Option String := none
  phone : Option String := none
  role : Option String := none
  department : Option String := none
  bio : Option String := none
  deriving DecidableEq

/-- An attachment entry as sent by clients to the delegation endpoints:
either a plain descriptor string or an object exposing a `.name`
property (the update handler evaluates `f.name || f`). -/
inductive AttachmentVal where
  | plain (s : String)
  | file (name : String)
  deriving DecidableEq

/-- `f.name || f` from the update handler: an object with a non-empty
name collapses to that name; an object with an empty (falsy) name stays
the object; a plain value stays itself. -/
def normalizeAttachment (f : AttachmentVal) : AttachmentVal :=
  match f with
  | .file n => if n = "" then .file n else .plain n
  | .plain s => .plain s

/-- A delegation row, one column per column of the `delegations` table.
Nullable columns are `Option`; `created_at` is the store-defaulted
timestamp, modelled as a `Nat`. -/
structure DelegationRow where
  id : Nat
  task_name : Option String := none
  assigned_by : Option String := none
  assigned_to : Option String := none
  planned_date : Option String := none
  priority : Option String := none
  message : Option String := none
  attachments : List AttachmentVal := []
  assigned_pc : Option String := none
  group_name : Option String := none
  notify_to : Option String := none
  auditor : Option String := none
  make_attachment_mandatory : Option Bool := none
  make_note_mandatory : Option Bool := none
  notify_doer : Option String := none
  set_reminder : Option Bool := none
  reminder_mode : Option String := none
  reminder_frequency : Option String := none
  reminder_before_days : Option Int := none
  reminder_starting_time : Option String := none
  status : Option String := none
  created_at : Nat := 0
  completed_at : Option Nat := none
  notes : Option String := none
  deriving DecidableEq

/-- A participant field as sent by a client in a PUT /delegations/:id
body: a plain scalar string, an object that may expose an `email`
property, or null/undefined. -/
inductive Participant where
  | pStr (s : String)
  | pObj (email : Option String)
  | pNull
  deriving DecidableEq

/-- `d.field?.email || null` from the update handler: optional chaining
yields the `email` property only when the value is an object; on a plain
string or null it yields undefined; `|| null` then maps every falsy
result (undefined, or an empty email string) to null. -/
def normalizeParticipant (p : Participant) : Option String :=
  match p with
  | .pObj (some e) => if e = "" then none else some e
  | .pObj none => none
  | .pStr _ => none
  | .pNull => none

/-- The participant normalization the spec describes for Update: extract
`.email` when the field is an object, otherwise use the raw value,
otherwise persist null.  Kept separate from `normalizeParticipant`
(translated from the source) to compare the two. -/
def specNormalizeParticipant (p : Participant) : Option String :=
  match p with
  | .pObj (some e) => some e
  | .pObj none => none
  | .pStr s => some s
  | .pNull => none

/-- The body of a PUT /delegations/:id request (camelCase client
fields).  Participant fields may be scalars or objects; `attachments`
is `none` when the client did not send an array
(`Array.isArray(d.attachments)` fails). -/
structure UpdateBody where
  taskName : Option String := none
  assignedBy : Participant := .pNull
  assignedTo : Participant := .pNull
  plannedDate : Option String := none
  priority : Option String := none
  message : Option String := none
  attachments : Option (List AttachmentVal) := none
  assignedPC : Option String := none
  groupName : Option String := none
  notifyTo : Participant := .pNull
  auditor : Participant := .pNull
  makeAttachmentMandatory : Option Bool := none
  makeNoteMandatory : Option Bool := none
  notifyDoer : Option String := none
  setReminder : Option Bool := none
  reminderMode : Option String := none
  reminderFrequency : Option String := none
  reminderBeforeDays : Option Int := none
  reminderStartingTime : Option String := none
  status : Option String := none
  completedAt : Option Nat := none
  notes : Option String := none
  deriving DecidableEq

/-- Effect of the UPDATE statement of PUT /delegations/:id on one row:
every mutable column is replaced from the body, participant fields
through `normalizeParticipant`, attachments through
`normalizeAttachment` (`[]` when no array was sent); `id` and
`created_at` are not in the SET list and stay. -/
def updateRow (d : UpdateBody) (row : DelegationRow) : DelegationRow :=
  { row with
    task_name := d.taskName
    assigned_by := normalizeParticipant d.assignedBy
    assigned_to := normalizeParticipant d.assignedTo
    planned_date := d.plannedDate
    priority := d.priority
    message := d.message
    attachments := (d.attachments.getD []).map normalizeAttachment
    assigned_pc := d.assignedPC
    group_name := d.groupName
    notify_to := normalizeParticipant d.notifyTo
    auditor := normalizeParticipant d.auditor
    make_attachment_mandatory := d.makeAttachmentMandatory
    make_note_mandatory := d.makeNoteMandatory
    notify_doer := d.notifyDoer
    set_reminder := d.setReminder
    reminder_mode := d.reminderMode
    reminder_frequency := d.reminderFrequency
    reminder_before_days := d.reminderBeforeDays
    reminder_starting_time := d.reminderStartingTime
    status := d.status
    completed_at := d.completedAt
    notes := d.notes }

/-- A member record of the GET /team response. -/
structure TeamMember where
  id : String
  name : String
  email : String
  role : Option String
  department : Option String
  phone : Option String
  status : String
  tasksAssigned : Nat
  tasksCompleted : Nat
  tasksInProgress : Nat
  tasksPending : Nat
  tasksOverdue : Nat
  performanceScore : Int
  deriving DecidableEq

/-- JSON bodies the handlers produce, one constructor per shape used in
the source. -/
inductive RespBody where
  | err (msg : String)
  | errDetails (msg : String) (details : String)
  | ok
  | okToken (tok : String)
  | delegationList (rows : List DelegationRow)
  | delegationOne (row : DelegationRow)
  | analytics (total completed pending overdue : Nat)
      (top : List (Option String × Nat))
      (recent : List (Option String × Option String × Option Nat))
  | team (members : List TeamMember)
  deriving DecidableEq

/-- An HTTP response: status code plus JSON body. -/
structure Response where
  status : Nat
  body : RespBody
  deriving DecidableEq

/-! ## Session Token Service (`authenticateToken`, lines 74-83) -/

/-- JavaScript `split(c)` on a character list: splits at every
occurrence of `c`, keeping empty pieces, so the result always has one
more piece than there are occurrences of `c`. -/
def splitCharsOn (c : Char) : List Char → List (List Char)
  | [] => [[]]
  | a :: rest =>
    match splitCharsOn c rest with
    | [] => if a = c then [[], []] else [[a]]
    | h :: t => if a = c then [] :: h :: t else (a :: h) :: t

/-- `s.split(' ')` as the handlers use it. -/
def splitOnSpace (s : String) : List String :=
  (splitCharsOn ' ' s.data).map (fun l => ⟨l⟩)

/-- `authHeader && authHeader.split(' ')[1]` followed by the `!token`
falsiness check: the token is the second space-separated word of the
authorization header when that word exists and is non-empty. -/
def extractToken (authHeader : Option String) : Option String :=
  match authHeader with
  | none => none
  | some h =>
    match (splitOnSpace h).get? 1 with
    | none => none
    | some t => if t = "" then none else some t

/-- Outcome of the middleware: reject without token, reject an
unverifiable token, or continue with the email claim as `req.user`. -/
inductive AuthResult where
  | noToken
  | invalidToken
  | authenticated (email : String)
  deriving DecidableEq

/-- The `authenticateToken` middleware.  `verify` abstracts
`jwt.verify(token, JWT_SECRET, ...)`: it returns the embedded email
claim on success and `none` on bad signature or expiry. -/
def authenticateToken (verify : String → Option String)
    (authHeader : Option String) : AuthResult :=
  match extractToken authHeader with
  | none => .noToken
  | some t =>
    match verify t with
    | none => .invalidToken
    | some email => .authenticated email

/-- Composition of the middleware with a protected handler, as Express
does for `app.get('/profile', authenticateToken, handler)`: 401 when
no token was provided, 403 when the token does not verify, otherwise
the handler runs with the authenticated email. -/
def protect (verify : String → Option String) (authHeader : Option String)
    (handler : String → Response) : Response :=
  match authenticateToken verify authHeader with
  | .noToken => ⟨401, .err "No token provided"⟩
  | .invalidToken => ⟨403, .err "Invalid token"⟩
  | .authenticated email => handler email

/-! ## Credential Store (POST /register lines 86-104, POST /login
lines 107-122) -/

/-- Errors the store can raise on INSERT: the unique-constraint
violation (Postgres error code 23505) or any other error carrying a
message. -/
inductive DbError where
  | uniqueViolation
  | other (msg : String)
  deriving DecidableEq

/-- `INSERT INTO users (email, password) VALUES ($1, $2)` against the
unique constraint on `email`: fails with the unique-violation signal
when a row with that email exists, otherwise appends the row. -/
def insertUser (st : List UserRow) (email hashed : String) :
    Except DbError (List UserRow) :=
  if st.any (fun u => u.email = email) then .error .uniqueViolation
  else .ok (st ++ [{ email := email, password := hashed }])

/-- The catch block of /register: `err.code === '23505'` maps to 409,
anything else to 500 with the error message attached. -/
def registerCatch (e : DbError) : Response :=
  match e with
  | .uniqueViolation => ⟨409, .err "Email already exists"⟩
  | .other m => ⟨500, .errDetails "Server error" m⟩

/-- POST /register.  `hash` abstracts `bcrypt.hash(password, 10)`.
Returns the response and the store after the call. -/
def register (hash : String → String) (st : List UserRow)
    (email password : String) : Response × List UserRow :=
  if email = "" ∨ password = "" then (⟨400, .err "Missing fields"⟩, st)
  else
    match insertUser st email (hash password) with
    | .ok st2 => (⟨200, .ok⟩, st2)
    | .error e => (registerCatch e, st)

/-- POST /login.  `compare` abstracts `bcrypt.compare(password, hash)`
and `sign` abstracts `jwt.sign({email}, JWT_SECRET, {expiresIn:'1h'})`.
Absent email and mismatched password collapse to the same 401. -/
def login (compare : String → String → Bool) (sign : String → String)
    (st : List UserRow) (email password : String) : Response :=
  if email = "" ∨ password = "" then ⟨400, .err "Missing fields"⟩
  else
    match st.find? (fun u => u.email = email) with
    | none => ⟨401, .err "Invalid credentials"⟩
    | some user =>
      if compare password user.password then ⟨200, .okToken (sign user.email)⟩
      else ⟨401, .err "Invalid credentials"⟩

/-! ## Delegation Repository (lines 183-270) -/

/-- Insert into a descending-sorted list: `le a b` means `a` may come
before `b`. -/
def insertBy {α : Type} (le : α → α → Bool) (a : α) : List α → List α
  | [] => [a]
  | b :: bs => if le a b then a :: b :: bs else b :: insertBy le a bs

/-- Insertion sort with respect to `le`, modelling the ORDER BY clauses
of the SQL queries. -/
def sortBy {α : Type} (le : α → α → Bool) : List α → List α
  | [] => []
  | a :: as => insertBy le a (sortBy le as)

/-- GET /delegations: every row, ordered by `created_at` descending.
The authorization header is in scope (`req`) but never read: the route
has no `authenticateToken` middleware. -/
def getDelegations (auth : Option String) (st : List DelegationRow) :
    Response :=
  ⟨200, .delegationList (sortBy (fun a b => b.created_at ≤ a.created_at) st)⟩

/-- The body of a POST /delegations request: all fields are plain
scalars at create time (no object normalization on this path). -/
structure CreateBody where
  taskName : Option String := none
  assignedBy : Option String := none
  assignedTo : Option String := none
  plannedDate : Option String := none
  priority : Option String := none
  message : Option String := none
  attachments : Option (List AttachmentVal) := none
  assignedPC : Option String := none
  groupName : Option String := none
  notifyTo : Option String := none
  auditor : Option String := none
  makeAttachmentMandatory : Option Bool := none
  makeNoteMandatory : Option Bool := none
  notifyDoer : Option String := none
  setReminder : Option Bool := none
  reminderMode : Option String := none
  reminderFrequency : Option String := none
  reminderBeforeDays : Option Int := none
  reminderStartingTime : Option String := none
  status : Option String := none
  notes : Option String := none
  deriving DecidableEq

/-- The row written by the INSERT of POST /delegations: the body fields
in the create column order, plus the generated serial id and the
store-defaulted `created_at` timestamp. -/
def mkDelegationRow (newId now : Nat) (d : CreateBody) : DelegationRow :=
  { id := newId
    task_name := d.taskName
    assigned_by := d.assignedBy
    assigned_to := d.assignedTo
    planned_date := d.plannedDate
    priority := d.priority
    message := d.message
    attachments := d.attachments.getD []
    assigned_pc := d.assignedPC
    group_name := d.groupName
    notify_to := d.notifyTo
    auditor := d.auditor
    make_attachment_mandatory := d.makeAttachmentMandatory
    make_note_mandatory := d.makeNoteMandatory
    notify_doer := d.notifyDoer
    set_reminder := d.setReminder
    reminder_mode := d.reminderMode
    reminder_frequency := d.reminderFrequency
    reminder_before_days := d.reminderBeforeDays
    reminder_starting_time := d.reminderStartingTime
    status := d.status
    created_at := now
    completed_at := none
    notes := d.notes }

/-- POST /delegations: inserts the new row (serial id and timestamp
supplied by the store, passed here explicitly) and returns it
(`RETURNING *`).  No auth middleware on this route. -/
def postDelegations (auth : Option String) (st : List DelegationRow)
    (newId now : Nat) (d : CreateBody) : Response × List DelegationRow :=
  let row := mkDelegationRow newId now d
  (⟨200, .delegationOne row⟩, st ++ [row])

/-- PUT /delegations/:id: full replace of every mutable column of the
row(s) whose id matches; responds `{success: true}` regardless of how
many rows matched.  No auth middleware on this route. -/
def putDelegation (auth : Option String) (st : List DelegationRow)
    (i : Nat) (d : UpdateBody) : Response × List DelegationRow :=
  (⟨200, .ok⟩, st.map (fun r => if r.id = i then updateRow d r else r))

/-- DELETE /delegations/:id: unconditional `DELETE ... WHERE id = $1`;
responds `{success: true}` whether or not any row matched.  No auth
middleware on this route. -/
def deleteDelegation (auth : Option String) (st : List DelegationRow)
    (i : Nat) : Response × List DelegationRow :=
  (⟨200, .ok⟩, st.filter (fun r => ¬ r.id = i))

/-! ## Analytics Aggregator (GET /analytics lines 273-318, GET /team
lines 321-355) -/

/-- `SELECT COUNT(*) FROM delegations WHERE status = s`. -/
def countStatus (st : List DelegationRow) (s : String) : Nat :=
  st.countP (fun r => r.status = some s)

/-- JavaScript `.trim()`: strip leading and trailing whitespace. -/
def jsTrim (s : String) : String :=
  ⟨((s.data.dropWhile Char.isWhitespace).reverse.dropWhile
      Char.isWhitespace).reverse⟩

/-- The template `` `${first_name || ''} ${last_name || ''}`.trim() ``
shared by top performers, recent activity and the team report. -/
def renderName (first last : Option String) : String :=
  jsTrim (first.getD "" ++ " " ++ last.getD "")

/-- Name resolution against the `users` table: the trimmed rendered
name when a row with that email exists, otherwise the raw identity
string. -/
def resolveName (users : List UserRow) (email : String) : String :=
  match users.find? (fun u => u.email = email) with
  | some u => renderName u.first_name u.last_name
  | none => email

/-- Name resolution lifted to a nullable `assigned_to`: the lookup with
a NULL email matches no user row, and the fallback is the NULL identity
itself. -/
def resolveNameOpt (users : List UserRow) (a : Option String) :
    Option String :=
  match a with
  | some e => some (resolveName users e)
  | none => none

/-- The distinct keys of a GROUP BY, in first-occurrence order. -/
def distinctKeys (l : List (Option String)) : List (Option String) :=
  l.foldl (fun acc a => if a ∈ acc then acc else acc ++ [a]) []

/-- The top-performers SQL query: completed delegations grouped by
`assigned_to` with their counts, ordered by count descending, first
three groups. -/
def topPerformersRaw (st : List DelegationRow) : List (Option String × Nat) :=
  let completedRows := st.filter (fun r => r.status = some "Completed")
  let keys := distinctKeys (completedRows.map (fun r => r.assigned_to))
  let grouped := keys.map
    (fun a => (a, (completedRows.filter (fun r => r.assigned_to = a)).length))
  (sortBy (fun x y => y.2 ≤ x.2) grouped).take 3

/-- The `topPerformers` array of GET /analytics: each group paired with
its resolved display name. -/
def topPerformers (users : List UserRow) (st : List DelegationRow) :
    List (Option String × Nat) :=
  (topPerformersRaw st).map (fun g => (resolveNameOpt users g.1, g.2))

/-- `ORDER BY completed_at DESC` on nullable timestamps: Postgres puts
NULLs first in a descending order. -/
def completedAtDesc (a b : DelegationRow) : Bool :=
  match a.completed_at, b.completed_at with
  | none, _ => true
  | some _, none => false
  | some x, some y => y ≤ x

/-- The recent-activity SQL query: the three most recently completed
delegations. -/
def recentActivityRaw (st : List DelegationRow) : List DelegationRow :=
  (sortBy completedAtDesc (st.filter (fun r => r.status = some "Completed"))).take 3

/-- The `recentActivity` array of GET /analytics: task name, resolved
display name, completion timestamp. -/
def recentActivity (users : List UserRow) (st : List DelegationRow) :
    List (Option String × Option String × Option Nat) :=
  (recentActivityRaw st).map
    (fun r => (r.task_name, resolveNameOpt users r.assigned_to, r.completed_at))

/-- GET /analytics: the four summary counts plus top performers and
recent activity.  No auth middleware on this route. -/
def getAnalytics (auth : Option String) (users : List UserRow)
    (st : List DelegationRow) : Response :=
  ⟨200, .analytics st.length
    (countStatus st "Completed")
    (countStatus st "Pending")
    (countStatus st "Overdue")
    (topPerformers users st)
    (recentActivity users st)⟩

/-- `Math.round` on an exact rational: round half toward positive
infinity, which is JavaScript's rounding rule. -/
def jsRound (q : ℚ) : ℤ := ⌊q + 1 / 2⌋

/-- `totalTasks > 0 ? Math.round((completedTasks / totalTasks) * 100) : 0`
from GET /team, on exact rationals. -/
def performanceScore (totalTasks completedTasks : Nat) : ℤ :=
  if 0 < totalTasks then
    jsRound ((completedTasks : ℚ) / (totalTasks : ℚ) * 100)
  else 0

/-- One record of the GET /team response: the five per-user filtered
counts, the constant Active status, the name with its email fallback,
and the performance score. -/
def teamEntry (st : List DelegationRow) (u : UserRow) : TeamMember :=
  let assigned :=
    (st.filter (fun r => r.assigned_to = some u.email)).length
  let completed :=
    (st.filter (fun r => r.assigned_to = some u.email ∧
      r.status = some "Completed")).length
  let inProgress :=
    (st.filter (fun r => r.assigned_to = some u.email ∧
      r.status = some "In Progress")).length
  let pending :=
    (st.filter (fun r => r.assigned_to = some u.email ∧
      r.status = some "Pending")).length
  let overdue :=
    (st.filter (fun r => r.assigned_to = some u.email ∧
      r.status = some "Overdue")).length
  { id := u.email
    name := if renderName u.first_name u.last_name = "" then u.email
            else renderName u.first_name u.last_name
    email := u.email
    role := u.role
    department := u.department
    phone := u.phone
    status := "Active"
    tasksAssigned := assigned
    tasksCompleted := completed
    tasksInProgress := inProgress
    tasksPending := pending
    tasksOverdue := overdue
    performanceScore := performanceScore assigned completed }

/-- The list of team records, one per user row. -/
def teamReport (users : List UserRow) (st : List DelegationRow) :
    List TeamMember :=
  users.map (teamEntry st)

/-- GET /team.  No auth middleware on this route. -/
def getTeam (auth : Option String) (users : List UserRow)
    (st : List DelegationRow) : Response :=
  ⟨200, .team (teamReport users st)⟩

/-! ## Concrete fixtures used by witnesses and counterexamples -/

/-- A completed delegation assigned to `x@y.com`. -/
def sampleRow : DelegationRow :=
  { id := 1, task_name := some "t", assigned_by := some "old@b.com",
    assigned_to := some "x@y.com", status := some "Completed",
    completed_at := some 5 }

/-- A second, pending delegation for the same assignee. -/
def samplePendingRow : DelegationRow :=
  { sampleRow with id := 2, status := some "Pending", completed_at := none }

/-- A registered user whose first and last name are both empty strings. -/
def emptyNameUser : UserRow :=
  { email := "x@y.com", password := "h", first_name := some "",
    last_name := some "" }

/-- An update body carrying a participant as a plain scalar string. -/
def ubStr : UpdateBody := { assignedBy := .pStr "a@b.com" }

/-- An update body carrying the same participant as `{email: ...}`. -/
def ubObj : UpdateBody := { assignedBy := .pObj (some "a@b.com") }

/-! ## Theorems -/

/-- Claim C1, counterexample.  PUT /delegations/:id with the
participant `assignedBy` given as the plain string `"a@b.com"` persists
null, not the raw string, while the object form `{email: "a@b.com"}`
persists `"a@b.com"`: the two calls do not store the identical value,
and the code's normalization disagrees with the spec's
extract-or-raw-value rule on plain scalars. -/
theorem update_plain_string_participant_stores_null :
    ((putDelegation none [sampleRow] 1 ubStr).2.map
      (fun r => r.assigned_by)) = [none] ∧
    ((putDelegation none [sampleRow] 1 ubObj).2.map
      (fun r => r.assigned_by)) = [some "a@b.com"] ∧
    (none : Option String) ≠ some "a@b.com" ∧
    normalizeParticipant (.pStr "a@b.com") = none ∧
    specNormalizeParticipant (.pStr "a@b.com") = some "a@b.com" := by
  decide

/-- Claim C1, amended.  For every Update(id, fields) call, each
participant field (assigned-by, assigned-to, notify-to, auditor) is
normalized as follows: when the supplied value is an object exposing a
non-empty email property, the stored value is that email string; in
every other case — an object without an email, an object with an empty
email, a plain scalar such as the string "a@b.com", or null — null is
persisted. -/
theorem update_participant_normalization
    (auth : Option String) (st : List DelegationRow) (i : Nat)
    (d : UpdateBody) (r : DelegationRow)
    (hr : r ∈ (putDelegation auth st i d).2) (hid : r.id = i) :
    (r.assigned_by = normalizeParticipant d.assignedBy ∧
     r.assigned_to = normalizeParticipant d.assignedTo ∧
     r.notify_to = normalizeParticipant d.notifyTo ∧
     r.auditor = normalizeParticipant d.auditor) ∧
    (∀ e, e ≠ "" → normalizeParticipant (.pObj (some e)) = some e) ∧
    (∀ s, normalizeParticipant (.pStr s) = none) ∧
    normalizeParticipant (.pObj (some "")) = none ∧
    normalizeParticipant (.pObj none) = none ∧
    normalizeParticipant .pNull = none := by
  simp only [putDelegation] at hr
  obtain ⟨a, ha, hra⟩ := List.mem_map.mp hr
  refine ⟨?_, fun e he => by simp [normalizeParticipant, he],
    fun s => rfl, rfl, rfl, rfl⟩
  by_cases h : a.id = i
  · rw [if_pos h] at hra
    subst hra
    exact ⟨rfl, rfl, rfl, rfl⟩
  · rw [if_neg h] at hra
    subst hra
    exact absurd hid h

/-- Claim C1, witness: the amended theorem applied to the one-row store
and the object-shaped body. -/
theorem update_participant_normalization_witness :
    (updateRow ubObj sampleRow) ∈ (putDelegation none [sampleRow] 1 ubObj).2 ∧
    (updateRow ubObj sampleRow).id = 1 ∧
    (updateRow ubObj sampleRow).assigned_by = some "a@b.com" := by
  refine ⟨by decide, by decide, ?_⟩
  have h := (update_participant_normalization none [sampleRow] 1 ubObj
    (updateRow ubObj sampleRow) (by decide) (by decide)).1.1
  rw [h]
  decide

/-- Claim C5.  The session token middleware distinguishes the two
failure modes: with no bearer token extractable from the authorization
header the response is 401 "No token provided"; with a token present
but unverifiable the response is 403 "Invalid token"; on success the
handler runs with the email claim embedded in the token. -/
theorem authenticate_distinguishes_missing_and_invalid
    (verify : String → Option String) (authHeader : Option String)
    (handler : String → Response) :
    (extractToken authHeader = none →
      protect verify authHeader handler = ⟨401, .err "No token provided"⟩) ∧
    (∀ t, extractToken authHeader = some t → verify t = none →
      protect verify authHeader handler = ⟨403, .err "Invalid token"⟩) ∧
    (∀ t e, extractToken authHeader = some t → verify t = some e →
      protect verify authHeader handler = handler e) := by
  refine ⟨fun h => ?_, fun t ht hv => ?_, fun t e ht hv => ?_⟩
  · simp [protect, authenticateToken, h]
  · simp [protect, authenticateToken, ht, hv]
  · simp [protect, authenticateToken, ht, hv]

/-- Claim C5, witness: a verifier accepting exactly the token "good"
with claim `x@y.com`, exercised on a missing header, a bad token and a
good token. -/
theorem authenticate_distinguishes_witness :
    protect (fun t => if t = "good" then some "x@y.com" else none) none
      (fun e => ⟨200, .okToken e⟩) = ⟨401, .err "No token provided"⟩ ∧
    protect (fun t => if t = "good" then some "x@y.com" else none)
      (some "Bearer bad") (fun e => ⟨200, .okToken e⟩) =
      ⟨403, .err "Invalid token"⟩ ∧
    protect (fun t => if t = "good" then some "x@y.com" else none)
      (some "Bearer good") (fun e => ⟨200, .okToken e⟩) =
      ⟨200, .okToken "x@y.com"⟩ := by
  refine ⟨?_, ?_, ?_⟩
  · exact (authenticate_distinguishes_missing_and_invalid _ none _).1
      (by decide)
  · exact (authenticate_distinguishes_missing_and_invalid _ _ _).2.1
      "bad" (by decide) (by decide)
  · exact (authenticate_distinguishes_missing_and_invalid _ _ _).2.2
      "good" "x@y.com" (by decide) (by decide)

/-- Claim C9.  DELETE /delegations/:id responds `{success: true}` for
every id, and when no stored row carries that id the store is left
unchanged. -/
theorem delete_delegation_idempotent (auth : Option String)
    (st : List DelegationRow) (i : Nat) :
    (deleteDelegation auth st i).1 = ⟨200, .ok⟩ ∧
    ((∀ r ∈ st, r.id ≠ i) → (deleteDelegation auth st i).2 = st) := by
  refine ⟨rfl, fun h => ?_⟩
  simp only [deleteDelegation]
  exact List.filter_eq_self.mpr (fun a ha => by simp [h a ha])

/-- Claim C9, witness: deleting the absent id 99 from the one-row store
succeeds and leaves it unchanged. -/
theorem delete_delegation_idempotent_witness :
    (deleteDelegation none [sampleRow] 99).1 = ⟨200, .ok⟩ ∧
    (deleteDelegation none [sampleRow] 99).2 = [sampleRow] :=
  ⟨(delete_delegation_idempotent none [sampleRow] 99).1,
   (delete_delegation_idempotent none [sampleRow] 99).2 (by decide)⟩

/-- Claim C10.  Every record of the GET /team response carries the
constant status "Active", whatever the stored users and delegations
are. -/
theorem team_status_constant (users : List UserRow)
    (st : List DelegationRow) (m : TeamMember)
    (hm : m ∈ teamReport users st) : m.status = "Active" := by
  simp only [teamReport] at hm
  obtain ⟨u, hu, rfl⟩ := List.mem_map.mp hm
  rfl

/-- Claim C10, witness: the team record of `emptyNameUser` over the
two-row store has status "Active". -/
theorem team_status_constant_witness :
    (teamEntry [sampleRow, samplePendingRow] emptyNameUser).status =
      "Active" :=
  team_status_constant [emptyNameUser] [sampleRow, samplePendingRow] _
    (by simp [teamReport])

/-- Claim C2.  The delegation CRUD handlers and the analytics handlers
have no `authenticateToken` middleware: their responses are identical
for any two authorization headers, and none of them ever returns 401
or 403. -/
theorem delegation_routes_ignore_authorization
    (a1 a2 : Option String) (users : List UserRow)
    (st : List DelegationRow) (newId now i : Nat) (c : CreateBody)
    (d : UpdateBody) :
    (getDelegations a1 st = getDelegations a2 st ∧
      (getDelegations a1 st).status ≠ 401 ∧
      (getDelegations a1 st).status ≠ 403) ∧
    (postDelegations a1 st newId now c = postDelegations a2 st newId now c ∧
      (postDelegations a1 st newId now c).1.status ≠ 401 ∧
      (postDelegations a1 st newId now c).1.status ≠ 403) ∧
    (putDelegation a1 st i d = putDelegation a2 st i d ∧
      (putDelegation a1 st i d).1.status ≠ 401 ∧
      (putDelegation a1 st i d).1.status ≠ 403) ∧
    (deleteDelegation a1 st i = deleteDelegation a2 st i ∧
      (deleteDelegation a1 st i).1.status ≠ 401 ∧
      (deleteDelegation a1 st i).1.status ≠ 403) ∧
    (getAnalytics a1 users st = getAnalytics a2 users st ∧
      (getAnalytics a1 users st).status ≠ 401 ∧
      (getAnalytics a1 users st).status ≠ 403) ∧
    (getTeam a1 users st = getTeam a2 users st ∧
      (getTeam a1 users st).status ≠ 401 ∧
      (getTeam a1 users st).status ≠ 403) := by
  refine ⟨⟨rfl, by simp [getDelegations], by simp [getDelegations]⟩,
    ⟨rfl, by simp [postDelegations], by simp [postDelegations]⟩,
    ⟨rfl, by simp [putDelegation], by simp [putDelegation]⟩,
    ⟨rfl, by simp [deleteDelegation], by simp [deleteDelegation]⟩,
    ⟨rfl, by simp [getAnalytics], by simp [getAnalytics]⟩,
    ⟨rfl, by simp [getTeam], by simp [getTeam]⟩⟩

/-- Claim C2, witness: two concrete headers — none, and a bearer token —
give the identical GET /delegations response, and GET /team does not
answer 401. -/
theorem delegation_routes_ignore_authorization_witness :
    getDelegations none [sampleRow] =
      getDelegations (some "Bearer tok") [sampleRow] ∧
    (getTeam none [emptyNameUser] [sampleRow]).status ≠ 401 :=
  ⟨(delegation_routes_ignore_authorization none (some "Bearer tok")
      [emptyNameUser] [sampleRow] 7 9 1 {} {}).1.1,
   (delegation_routes_ignore_authorization none (some "Bearer tok")
      [emptyNameUser] [sampleRow] 7 9 1 {} {}).2.2.2.2.2.2.1⟩

/-- Claim C3.  With non-empty email and password on both calls, a login
with a never-registered email and a login with a registered email but a
wrong password produce the same response: 401 with the undifferentiated
"Invalid credentials" body. -/
theorem login_enumeration_resistance
    (compare : String → String → Bool) (sign : String → String)
    (st : List UserRow) (e1 p1 e2 p2 : String) (u : UserRow)
    (he1 : e1 ≠ "") (hp1 : p1 ≠ "") (he2 : e2 ≠ "") (hp2 : p2 ≠ "")
    (habsent : st.find? (fun v => v.email = e1) = none)
    (hfound : st.find? (fun v => v.email = e2) = some u)
    (hwrong : compare p2 u.password = false) :
    login compare sign st e1 p1 = login compare sign st e2 p2 ∧
    login compare sign st e1 p1 = ⟨401, .err "Invalid credentials"⟩ := by
  have h1 : login compare sign st e1 p1 =
      ⟨401, .err "Invalid credentials"⟩ := by
    simp [login, he1, hp1, habsent]
  have h2 : login compare sign st e2 p2 =
      ⟨401, .err "Invalid credentials"⟩ := by
    simp [login, he2, hp2, hfound, hwrong]
  exact ⟨h1.trans h2.symm, h1⟩

/-- Claim C3, witness: against a store holding only `emptyNameUser`, a
login as the absent `ghost@x.com` and a login as `x@y.com` with a
password the comparator rejects coincide on 401 "Invalid
credentials". -/
theorem login_enumeration_resistance_witness :
    login (fun _ _ => false) (fun _ => "tok") [emptyNameUser]
      "ghost@x.com" "pw" =
    login (fun _ _ => false) (fun _ => "tok") [emptyNameUser]
      "x@y.com" "pw" ∧
    login (fun _ _ => false) (fun _ => "tok") [emptyNameUser]
      "ghost@x.com" "pw" = ⟨401, .err "Invalid credentials"⟩ :=
  login_enumeration_resistance (fun _ _ => false) (fun _ => "tok")
    [emptyNameUser] "ghost@x.com" "pw" "x@y.com" "pw" emptyNameUser
    (by decide) (by decide) (by decide) (by decide) (by decide)
    (by decide) rfl

/-- Claim C4.  With both fields non-empty, registering an email that is
not in the store succeeds, and registering it again yields the distinct
409 "Email already exists" conflict detected from the store's
unique-violation signal; any other store error maps to a 500 carrying
the underlying message; a duplicate registration never succeeds and
never changes the store. -/
theorem register_email_conflict (hash : String → String)
    (st : List UserRow) (email password : String)
    (hemail : email ≠ "") (hpassword : password ≠ "") :
    ((∀ u ∈ st, u.email ≠ email) →
      (register hash st email password).1 = ⟨200, .ok⟩ ∧
      (register hash (register hash st email password).2 email
        password).1 = ⟨409, .err "Email already exists"⟩) ∧
    ((∃ u ∈ st, u.email = email) →
      register hash st email password =
        (⟨409, .err "Email already exists"⟩, st)) ∧
    (∀ m, registerCatch (.other m) =
      ⟨500, .errDetails "Server error" m⟩) := by
  refine ⟨fun habs => ?_, fun hex => ?_, fun m => rfl⟩
  · have hany : st.any (fun u => u.email = email) = false := by
      simp only [List.any_eq_false, decide_eq_true_eq]
      exact habs
    have hany2 : (st ++ [({ email := email, password := hash password } :
        UserRow)]).any (fun u => u.email = email) = true := by
      simp [List.any_append]
    constructor
    · simp [register, hemail, hpassword, insertUser, hany]
    · simp [register, hemail, hpassword, insertUser, hany, hany2,
        registerCatch]
  · obtain ⟨u, hu, hue⟩ := hex
    have hany : st.any (fun u => u.email = email) = true :=
      List.any_eq_true.mpr ⟨u, hu, by simp [hue]⟩
    simp [register, hemail, hpassword, insertUser, hany, registerCatch]

/-- Claim C4, witness: registering `a@x.com` into the empty store
succeeds, and registering it a second time conflicts with 409. -/
theorem register_email_conflict_witness :
    (register id [] "a@x.com" "pw1").1 = ⟨200, .ok⟩ ∧
    (register id (register id [] "a@x.com" "pw1").2 "a@x.com"
      "pw1").1 = ⟨409, .err "Email already exists"⟩ :=
  (register_email_conflict id [] "a@x.com" "pw1" (by decide)
    (by decide)).1 (by decide)

/-- Claim C6, counterexample.  For a matching user row whose first and
last name are both empty, the top-performers and recent-activity
entries render the name as the empty string — the source applies
`.trim()` to the template — not as a single untrimmed space as the
claim states. -/
theorem analytics_empty_name_renders_empty_not_space :
    topPerformers [emptyNameUser] [sampleRow] = [(some "", 1)] ∧
    recentActivity [emptyNameUser] [sampleRow] =
      [(some "t", some "", some 5)] ∧
    renderName (some "") (some "") = "" ∧
    (some "" : Option String) ≠ some " " := by
  decide

/-- Claim C6, amended.  In TopPerformers and RecentActivity the display
name is resolved by joining against the user table, falling back to the
raw identity string when no matching user row exists; when a matching
row exists but both first and last name are empty (or null), the
rendered name is the empty string, since the source trims the
interpolated template. -/
theorem analytics_name_resolution (users : List UserRow)
    (st : List DelegationRow) :
    (∀ e, users.find? (fun u => u.email = e) = none →
      resolveName users e = e) ∧
    (∀ e u, users.find? (fun u => u.email = e) = some u →
      (u.first_name = none ∨ u.first_name = some "") →
      (u.last_name = none ∨ u.last_name = some "") →
      resolveName users e = "") ∧
    (∀ x ∈ topPerformers users st,
      ∃ g ∈ topPerformersRaw st, x = (resolveNameOpt users g.1, g.2)) ∧
    (∀ x ∈ recentActivity users st,
      ∃ r ∈ recentActivityRaw st,
        x = (r.task_name, resolveNameOpt users r.assigned_to,
          r.completed_at)) := by
  refine ⟨fun e h => ?_, fun e u hu h1 h2 => ?_, fun x hx => ?_,
    fun x hx => ?_⟩
  · simp [resolveName, h]
  · have hr : resolveName users e = renderName u.first_name u.last_name := by
      simp [resolveName, hu]
    rw [hr]
    rcases h1 with h1 | h1 <;> rcases h2 with h2 | h2 <;>
      rw [h1, h2] <;> decide
  · simp only [topPerformers] at hx
    obtain ⟨g, hg, hgx⟩ := List.mem_map.mp hx
    exact ⟨g, hg, hgx.symm⟩
  · simp only [recentActivity] at hx
    obtain ⟨r, hr, hrx⟩ := List.mem_map.mp hx
    exact ⟨r, hr, hrx.symm⟩

/-- Claim C6, witness: name resolution over the one-user table — the
unmatched `ghost@x.com` falls back to itself, and the matched
`x@y.com` with empty names renders as the empty string. -/
theorem analytics_name_resolution_witness :
    resolveName [emptyNameUser] "ghost@x.com" = "ghost@x.com" ∧
    resolveName [emptyNameUser] "x@y.com" = "" :=
  ⟨(analytics_name_resolution [emptyNameUser] [sampleRow]).1
      "ghost@x.com" (by decide),
   (analytics_name_resolution [emptyNameUser] [sampleRow]).2.1
      "x@y.com" emptyNameUser (by decide) (Or.inr rfl) (Or.inr rfl)⟩

/-- Claim C7.  In every GET /team record the performance score is
round(completed / assigned × 100) — rounding half up, as
`Math.round` does — when the number of assigned delegations is
positive, and exactly 0 when it is 0; in particular 2 assigned with 1
completed scores 50. -/
theorem team_performance_score (users : List UserRow)
    (st : List DelegationRow) (m : TeamMember)
    (hm : m ∈ teamReport users st) :
    (m.tasksAssigned = 0 → m.performanceScore = 0) ∧
    (0 < m.tasksAssigned → m.performanceScore =
      jsRound ((m.tasksCompleted : ℚ) / (m.tasksAssigned : ℚ) * 100)) ∧
    performanceScore 2 1 = 50 := by
  have h50 : performanceScore 2 1 = 50 := by
    norm_num [performanceScore, jsRound]
  simp only [teamReport] at hm
  obtain ⟨u, hu, rfl⟩ := List.mem_map.mp hm
  refine ⟨fun h0 => ?_, fun hpos => ?_, h50⟩
  · simp only [teamEntry] at h0 ⊢
    simp [performanceScore, h0]
  · simp only [teamEntry] at hpos ⊢
    simp [performanceScore, hpos]

/-- Claim C7, witness: `emptyNameUser` with 2 assigned and 1 completed
delegation gets the score the rounding formula gives, namely 50. -/
theorem team_performance_score_witness :
    0 < (teamEntry [sampleRow, samplePendingRow]
      emptyNameUser).tasksAssigned ∧
    (teamEntry [sampleRow, samplePendingRow]
      emptyNameUser).performanceScore = 50 := by
  refine ⟨by decide, ?_⟩
  have h := (team_performance_score [emptyNameUser]
    [sampleRow, samplePendingRow]
    (teamEntry [sampleRow, samplePendingRow] emptyNameUser)
    (by simp [teamReport])).2.1 (by decide)
  have hc : (teamEntry [sampleRow, samplePendingRow]
      emptyNameUser).tasksCompleted = 1 := by decide
  have ha : (teamEntry [sampleRow, samplePendingRow]
      emptyNameUser).tasksAssigned = 2 := by decide
  rw [hc, ha] at h
  rw [h]
  norm_num [jsRound]

/-- Claim C8.  The analytics summary counts satisfy
completed + pending + overdue ≤ total, with equality exactly when every
stored delegation has status Completed, Pending or Overdue — any other
status (In Progress, any string, or null) is excluded from the three
filtered counts but included in the total. -/
theorem analytics_summary_counts (st : List DelegationRow) :
    countStatus st "Completed" + countStatus st "Pending" +
      countStatus st "Overdue" ≤ st.length ∧
    (countStatus st "Completed" + countStatus st "Pending" +
        countStatus st "Overdue" = st.length ↔
      ∀ r ∈ st, r.status = some "Completed" ∨
        r.status = some "Pending" ∨ r.status = some "Overdue") := by
  induction st with
  | nil => simp [countStatus]
  | cons a t ih =>
    obtain ⟨ih1, ih2⟩ := ih
    have eC : countStatus (a :: t) "Completed" = countStatus t
        "Completed" + (if a.status = some "Completed" then 1 else 0) := by
      simp [countStatus, List.countP_cons]
    have eP : countStatus (a :: t) "Pending" = countStatus t
        "Pending" + (if a.status = some "Pending" then 1 else 0) := by
      simp [countStatus, List.countP_cons]
    have eO : countStatus (a :: t) "Overdue" = countStatus t
        "Overdue" + (if a.status = some "Overdue" then 1 else 0) := by
      simp [countStatus, List.countP_cons]
    rw [eC, eP, eO, List.length_cons, List.forall_mem_cons]
    by_cases h1 : a.status = some "Completed"
    · have h2 : ¬ a.status = some "Pending" := by rw [h1]; simp
      have h3 : ¬ a.status = some "Overdue" := by rw [h1]; simp
      rw [if_pos h1, if_neg h2, if_neg h3]
      refine ⟨by omega, ?_, ?_⟩
      · intro heq
        exact ⟨Or.inl h1, ih2.mp (by omega)⟩
      · rintro ⟨-, hall⟩
        have := ih2.mpr hall
        omega
    · by_cases h2 : a.status = some "Pending"
      · have h3 : ¬ a.status = some "Overdue" := by rw [h2]; simp
        rw [if_neg h1, if_pos h2, if_neg h3]
        refine ⟨by omega, ?_, ?_⟩
        · intro heq
          exact ⟨Or.inr (Or.inl h2), ih2.mp (by omega)⟩
        · rintro ⟨-, hall⟩
          have := ih2.mpr hall
          omega
      · by_cases h3 : a.status = some "Overdue"
        · rw [if_neg h1, if_neg h2, if_pos h3]
          refine ⟨by omega, ?_, ?_⟩
          · intro heq
            exact ⟨Or.inr (Or.inr h3), ih2.mp (by omega)⟩
          · rintro ⟨-, hall⟩
            have := ih2.mpr hall
            omega
        · rw [if_neg h1, if_neg h2, if_neg h3]
          refine ⟨by omega, ?_, ?_⟩
          · intro heq
            exact absurd heq (by omega)
          · rintro ⟨hgood, -⟩
            rcases hgood with h | h | h
            · exact absurd h h1
            · exact absurd h h2
            · exact absurd h h3

/-- Claim C8, witness: on a store where one delegation is In Progress,
the three filtered counts sum strictly below the total. -/
theorem analytics_summary_counts_witness :
    countStatus [sampleRow, samplePendingRow,
        { sampleRow with id := 3, status := some "In Progress" }]
      "Completed" +
    countStatus [sampleRow, samplePendingRow,
        { sampleRow with id := 3, status := some "In Progress" }]
      "Pending" +
    countStatus [sampleRow, samplePendingRow,
        { sampleRow with id := 3, status := some "In Progress" }]
      "Overdue" ≤
    ([sampleRow, samplePendingRow,
      { sampleRow with id := 3, status := some "In Progress" }] :
        List DelegationRow).length :=
  (analytics_summary_counts [sampleRow, samplePendingRow,
    { sampleRow with id := 3, status := some "In Progress" }]).1

end DelegationBackend
